import Mathlib

/-
Verification of the speaker-identification engine of the
"am-i-talking-too-much" repository.

The Python sources are shallowly embedded: audio buffers and vectors are
lists of real numbers (floating-point arithmetic is modelled by exact real
arithmetic), matrices are lists of rows, external library calls (the
pretrained neural embedder, sklearn's GaussianMixture.fit) are abstract
function parameters, and file persistence is modelled by the values the
stored records denote.  Embedding persistence (speaker_id.py
save_embedding / load_embedding) is modelled over the rationals so that
the float32 / float64 rounding behaviour the round-trip claim depends on
is captured exactly.
-/

namespace AmITalking

/-! ### Vector helpers mirroring the numpy operations used by the sources -/

/-- Dot product of two vectors, mirroring np.dot on 1-D arrays. -/
def dot (a b : List ℝ) : ℝ := (List.zipWith (fun x y => x * y) a b).sum

/-- Euclidean norm, mirroring np.linalg.norm on a 1-D array. -/
noncomputable def l2norm (v : List ℝ) : ℝ :=
  Real.sqrt ((v.map (fun x => x * x)).sum)

/-- Arithmetic mean, mirroring np.mean on a 1-D array (with the Lean
convention 0 / 0 = 0 for the empty list, where numpy yields NaN). -/
noncomputable def mean (l : List ℝ) : ℝ := l.sum / l.length

/-- Population standard deviation, mirroring np.std (ddof = 0). -/
noncomputable def stdDev (l : List ℝ) : ℝ :=
  Real.sqrt (mean (l.map (fun x => (x - mean l) ^ 2)))

/-! ### speaker_id.py -/

/-- Embedding of the SpeakerEmbeddingConfig dataclass
(speaker_id.py lines 13-16). -/
structure SpeakerEmbeddingConfig where
  model_id : String
  similarity_threshold : ℝ

/-- Default field values of the SpeakerEmbeddingConfig dataclass:
model_id = "pyannote/embedding", similarity_threshold = 0.45
(speaker_id.py lines 15-16). -/
noncomputable def defaultSpeakerEmbeddingConfig : SpeakerEmbeddingConfig :=
  { model_id := "pyannote/embedding", similarity_threshold := 0.45 }

/-- Embedding of cosine_similarity (speaker_id.py lines 100-105):
denom = norm(a) * norm(b); if denom == 0.0 return 0.0; else dot / denom. -/
noncomputable def cosine_similarity (a b : List ℝ) : ℝ :=
  let denom := l2norm a * l2norm b
  if denom = 0 then 0 else dot a b / denom

/-- Embedding of match_embedding (speaker_id.py lines 108-120).  The call
to the pretrained neural embedder (embedding_from_audio, a single forward
pass of the external pyannote model) is abstracted as the function
parameter embed.  Mirrors: threshold if not None else
config.similarity_threshold; similarity = cosine_similarity(current,
enrolled); confidence = max(0.0, min(1.0, (similarity + 1.0) / 2.0));
return similarity >= threshold, confidence. -/
noncomputable def match_embedding (embed : List ℝ → List ℝ)
    (config : SpeakerEmbeddingConfig) (audio enrolled : List ℝ)
    (threshold : Option ℝ) : Bool × ℝ :=
  let similarity_threshold := threshold.getD config.similarity_threshold
  let current_embedding := embed audio
  let similarity := cosine_similarity current_embedding enrolled
  let confidence := max 0 (min 1 ((similarity + 1) / 2))
  (if similarity_threshold ≤ similarity then true else false, confidence)

/-! ### Theorems for claims C3, C5, C6 -/

/-- Helper: the confidence rescaling used by match_embedding. -/
noncomputable def embeddingConfidence (s : ℝ) : ℝ := max 0 (min 1 ((s + 1) / 2))

lemma match_embedding_eq (embed : List ℝ → List ℝ)
    (config : SpeakerEmbeddingConfig) (audio enrolled : List ℝ)
    (threshold : Option ℝ) :
    match_embedding embed config audio enrolled threshold =
      (if threshold.getD config.similarity_threshold ≤
          cosine_similarity (embed audio) enrolled then true else false,
        embeddingConfidence (cosine_similarity (embed audio) enrolled)) := by
  rfl

/-- C3: match_embedding returns is_match = (cosine similarity ≥ the
effective threshold) and confidence = clamp((similarity + 1)/2, 0, 1);
the confidence map is monotone non-decreasing in the similarity, maps
similarity 1 to confidence 1 and similarity -1 to confidence 0. -/
theorem C3_match_embedding (embed : List ℝ → List ℝ)
    (config : SpeakerEmbeddingConfig) (audio enrolled : List ℝ)
    (threshold : Option ℝ) :
    (match_embedding embed config audio enrolled threshold =
      (if threshold.getD config.similarity_threshold ≤
          cosine_similarity (embed audio) enrolled then true else false,
        embeddingConfidence (cosine_similarity (embed audio) enrolled))) ∧
    (∀ s t : ℝ, s ≤ t → embeddingConfidence s ≤ embeddingConfidence t) ∧
    embeddingConfidence 1 = 1 ∧ embeddingConfidence (-1) = 0 := by
  refine ⟨match_embedding_eq embed config audio enrolled threshold, ?_, ?_, ?_⟩
  · intro s t hst
    unfold embeddingConfidence
    have h1 : (s + 1) / 2 ≤ (t + 1) / 2 := by linarith
    exact max_le_max le_rfl (min_le_min le_rfl h1)
  · unfold embeddingConfidence; norm_num
  · unfold embeddingConfidence; norm_num

/-- C5: cosine_similarity returns exactly 0 when either vector has zero
L2 norm; otherwise the denominator is nonzero (no division by zero) and
the result is the dot product divided by the product of the norms. -/
theorem C5_cosine_similarity_zero_norm (a b : List ℝ) :
    ((l2norm a = 0 ∨ l2norm b = 0) → cosine_similarity a b = 0) ∧
    (¬(l2norm a = 0 ∨ l2norm b = 0) →
      l2norm a * l2norm b ≠ 0 ∧
      cosine_similarity a b = dot a b / (l2norm a * l2norm b)) := by
  constructor
  · intro h
    have hd : l2norm a * l2norm b = 0 := by
      rcases h with h | h <;> simp [h]
    simp [cosine_similarity, hd]
  · intro h
    push_neg at h
    have hd : l2norm a * l2norm b ≠ 0 := mul_ne_zero h.1 h.2
    exact ⟨hd, by simp [cosine_similarity, hd]⟩

/-- Witness for C5 at concrete vectors: a = [0, 0] has zero norm, and
cosine_similarity [0, 0] [1, 2] = 0. -/
theorem C5_witness :
    (l2norm [0, 0] = 0 ∨ l2norm [(1 : ℝ), 2] = 0) ∧
    cosine_similarity [0, 0] [(1 : ℝ), 2] = 0 := by
  have h : l2norm [0, 0] = 0 ∨ l2norm [(1 : ℝ), 2] = 0 := by
    left
    simp [l2norm]
  exact ⟨h, (C5_cosine_similarity_zero_norm [0, 0] [(1 : ℝ), 2]).1 h⟩

/-- C6 counterexample: the similarity_threshold default of
SpeakerEmbeddingConfig is 0.45, which is at distance 0.2 from 0.65 and
hence not approximately 0.65. -/
theorem C6_counterexample :
    defaultSpeakerEmbeddingConfig.similarity_threshold = 0.45 ∧
    |defaultSpeakerEmbeddingConfig.similarity_threshold - 0.65| = 0.2 := by
  constructor
  · rfl
  · rw [show defaultSpeakerEmbeddingConfig.similarity_threshold = 0.45 from rfl]
    rw [abs_of_nonpos (by norm_num)]
    norm_num

/-- C6 amended: the similarity_threshold field of SpeakerEmbeddingConfig
defaults to exactly 0.45 when no value is supplied at construction. -/
theorem C6_default_threshold :
    defaultSpeakerEmbeddingConfig.similarity_threshold = 0.45 := rfl

/-! ### voice_matcher.py — MFCC feature extraction -/

/-- Embedding of _hz_to_mel (voice_matcher.py lines 42-44):
2595 * log10(1 + hz / 700). -/
noncomputable def hz_to_mel (hz : ℝ) : ℝ := 2595 * Real.logb 10 (1 + hz / 700)

/-- Embedding of _mel_to_hz (voice_matcher.py lines 47-49):
700 * (10 ** (mel / 2595) - 1). -/
noncomputable def mel_to_hz (mel : ℝ) : ℝ := 700 * ((10 : ℝ) ^ (mel / 2595) - 1)

/-- Mel points of _create_mel_filterbank: np.linspace(0,
hz_to_mel(sample_rate / 2), num_filters + 2) evaluated at index i
(voice_matcher.py lines 55-58). -/
noncomputable def melPoint (numFilters sampleRate : ℕ) (i : ℕ) : ℝ :=
  (i : ℝ) * hz_to_mel ((sampleRate : ℝ) / 2) / ((numFilters : ℝ) + 1)

/-- Bin points of _create_mel_filterbank: floor((fft_size + 1) *
mel_to_hz(mel_point i) / sample_rate) (voice_matcher.py lines 59-61). -/
noncomputable def binPoint (numFilters fftSize sampleRate : ℕ) (i : ℕ) : ℤ :=
  Int.floor (((fftSize : ℝ) + 1) * mel_to_hz (melPoint numFilters sampleRate i)
    / (sampleRate : ℝ))

/-- Entry (i, j) of the triangular Mel filterbank built by the two fill
loops of _create_mel_filterbank (voice_matcher.py lines 63-71); entries
outside the two triangle ramps stay at their zero initialisation.  In the
source the loop ranges are empty whenever two adjacent bin points
coincide, which the strict upper bounds of the two guards reproduce, so
neither ramp ever divides by zero. -/
noncomputable def filterbankEntry (numFilters fftSize sampleRate : ℕ)
    (i j : ℕ) : ℝ :=
  let b0 := binPoint numFilters fftSize sampleRate i
  let b1 := binPoint numFilters fftSize sampleRate (i + 1)
  let b2 := binPoint numFilters fftSize sampleRate (i + 2)
  if b0 ≤ (j : ℤ) ∧ (j : ℤ) < b1 then ((j : ℝ) - (b0 : ℝ)) / ((b1 : ℝ) - (b0 : ℝ))
  else if b1 ≤ (j : ℤ) ∧ (j : ℤ) < b2 then ((b2 : ℝ) - (j : ℝ)) / ((b2 : ℝ) - (b1 : ℝ))
  else 0

/-- The frame count of extract_mfcc before the short-input guard:
1 + (len(audio_data) - frame_size) // hop_size with Python floor
division (voice_matcher.py line 95). -/
def pyNumFrames (len frameSize hopSize : ℕ) : ℤ :=
  1 + Int.fdiv ((len : ℤ) - (frameSize : ℤ)) (hopSize : ℤ)

/-- The frame count of extract_mfcc after the short-input guard
(voice_matcher.py lines 95-99): a too-short input is zero-padded to one
full frame, so the count is clamped below at 1. -/
def numFrames (len frameSize hopSize : ℕ) : ℕ :=
  if pyNumFrames len frameSize hopSize < 1 then 1
  else (pyNumFrames len frameSize hopSize).toNat

/-- Hamming window coefficient, mirroring np.hamming(M)[j] =
0.54 - 0.46 * cos(2*pi*j / (M - 1)), with numpy's special case
np.hamming(1) = [1]. -/
noncomputable def hammingWindow (frameSize j : ℕ) : ℝ :=
  if frameSize = 1 then 1
  else 0.54 - 0.46 * Real.cos (2 * Real.pi * (j : ℝ) / ((frameSize : ℝ) - 1))

/-- Sample j of windowed frame i (voice_matcher.py lines 101-108): the
frame slice audio[i*hop : i*hop + frame_size] multiplied by the Hamming
window.  The getD default 0 both reads the in-bounds slice and supplies
the zero padding of the short-input branch. -/
noncomputable def windowedSample (audio : List ℝ) (frameSize hopSize i j : ℕ) : ℝ :=
  audio.getD (i * hopSize + j) 0 * hammingWindow frameSize j

/-- Power-spectrum bin k of windowed frame i (voice_matcher.py lines
110-112): the squared magnitude of the length-frame_size DFT, kept for
k < frame_size // 2 + 1. -/
noncomputable def framePower (audio : List ℝ) (frameSize hopSize i k : ℕ) : ℝ :=
  Complex.normSq (∑ j ∈ Finset.range frameSize,
    (windowedSample audio frameSize hopSize i j : ℂ) *
      Complex.exp (-(2 * (Real.pi : ℂ) * Complex.I * (j : ℂ) * (k : ℂ)) / (frameSize : ℂ)))

/-- Log Mel energy of frame i in filter f (voice_matcher.py lines
114-118): the power spectrum row projected through the filterbank, with
exact zeros floored to 1e-10 before the natural log. -/
noncomputable def melLogEnergy (audio : List ℝ)
    (sampleRate frameSize hopSize numFilters i f : ℕ) : ℝ :=
  let v := ∑ k ∈ Finset.range (frameSize / 2 + 1),
    framePower audio frameSize hopSize i k *
      filterbankEntry numFilters frameSize sampleRate f k
  Real.log (if v = 0 then 1e-10 else v)

/-- MFCC coefficient c of frame i (voice_matcher.py lines 120-127): the
Type-II DCT of the log Mel energies, dct_matrix[c, f] =
cos(pi * c * (f + 0.5) / num_filters). -/
noncomputable def mfccEntry (audio : List ℝ)
    (sampleRate frameSize hopSize numFilters i c : ℕ) : ℝ :=
  ∑ f ∈ Finset.range numFilters,
    melLogEnergy audio sampleRate frameSize hopSize numFilters i f *
      Real.cos (Real.pi * (c : ℝ) * ((f : ℝ) + 0.5) / (numFilters : ℝ))

/-- Embedding of extract_mfcc (voice_matcher.py lines 74-129): the
returned matrix has numFrames rows and num_mfcc columns; the filterbank
has 26 filters as hard-coded at line 115. -/
noncomputable def extract_mfcc (audio : List ℝ)
    (sampleRate numMfcc frameSize hopSize : ℕ) : List (List ℝ) :=
  (List.range (numFrames audio.length frameSize hopSize)).map (fun i =>
    (List.range numMfcc).map (fun c =>
      mfccEntry audio sampleRate frameSize hopSize 26 i c))

/-- Embedding of a call to extract_mfcc with every optional argument left
at its declared default (voice_matcher.py lines 74-76): sample_rate =
16000, num_mfcc = 13, frame_size = 512, hop_size = 256. -/
noncomputable def extract_mfcc_defaults (audio : List ℝ) : List (List ℝ) :=
  extract_mfcc audio 16000 13 512 256

lemma extract_mfcc_length (audio : List ℝ)
    (sampleRate numMfcc frameSize hopSize : ℕ) :
    (extract_mfcc audio sampleRate numMfcc frameSize hopSize).length =
      numFrames audio.length frameSize hopSize := by
  simp [extract_mfcc]

lemma extract_mfcc_row_length (audio : List ℝ)
    (sampleRate numMfcc frameSize hopSize : ℕ) :
    ∀ row ∈ extract_mfcc audio sampleRate numMfcc frameSize hopSize,
      row.length = numMfcc := by
  intro row hrow
  simp only [extract_mfcc, List.mem_map] at hrow
  obtain ⟨i, _, hi⟩ := hrow
  simp [← hi]

/-- C7 counterexample: calling feature extraction with all optional
arguments at their defaults on a 512-sample input yields a matrix with
one row of 13 columns, not 20 columns. -/
theorem C7_counterexample :
    (extract_mfcc_defaults (List.replicate 512 (0 : ℝ))).map List.length = [13] ∧
    (extract_mfcc_defaults (List.replicate 512 (0 : ℝ))).map List.length ≠ [20] := by
  have h : (extract_mfcc_defaults (List.replicate 512 (0 : ℝ))).map List.length = [13] := by
    have hn : numFrames (List.replicate 512 (0 : ℝ)).length 512 256 = 1 := by
      rw [List.length_replicate]
      decide
    rw [extract_mfcc_defaults, extract_mfcc, hn]
    rw [show List.range 1 = [0] from rfl]
    simp only [List.map_cons, List.map_nil, List.length_map, List.length_range]
  exact ⟨h, by rw [h]; simp⟩

/-- C7 amended: the coefficient-count parameter of feature extraction
defaults to 13 (not 20): for every audio input, calling extract_mfcc
without an explicit num_mfcc yields a matrix with one row per frame and
13 columns. -/
theorem C7_default_coeff_count (audio : List ℝ) :
    (extract_mfcc_defaults audio).length = numFrames audio.length 512 256 ∧
    ∀ row ∈ extract_mfcc_defaults audio, row.length = 13 := by
  exact ⟨extract_mfcc_length audio 16000 13 512 256,
    extract_mfcc_row_length audio 16000 13 512 256⟩

/-! ### voice_matcher.py — GMM voice profile -/

/-- Embedding of the fitted sklearn GaussianMixture state used by
VoiceProfile: mixture weights, component means, diagonal covariances,
their Cholesky precisions, and the derived inverse variances. -/
structure GaussianMixtureModel where
  weights : List ℝ
  means : List (List ℝ)
  covariances : List (List ℝ)
  precisions_cholesky : List (List ℝ)
  precisions : List (List ℝ)

/-- Density of one diagonal-covariance Gaussian component at x. -/
noncomputable def componentPdf (mu var x : List ℝ) : ℝ :=
  Real.exp (-(1 / 2) *
      (List.zipWith (fun xi p => (xi - p.1) ^ 2 / p.2) x (mu.zip var)).sum) /
    Real.sqrt ((2 * Real.pi) ^ mu.length * var.prod)

/-- Log-likelihood of one feature frame under the mixture, the quantity
sklearn's GaussianMixture.score_samples computes per row: the log of the
weighted sum of the diagonal-Gaussian component densities. -/
noncomputable def score_sample (g : GaussianMixtureModel) (x : List ℝ) : ℝ :=
  Real.log ((List.zipWith (fun w p => w * componentPdf p.1 p.2 x)
    g.weights (g.means.zip g.covariances)).sum)

/-- Embedding of the VoiceProfile class (voice_matcher.py lines 12-17). -/
structure VoiceProfile where
  gmm : GaussianMixtureModel
  threshold_score : ℝ

/-- Logistic sigmoid, mirroring scipy.special.expit. -/
noncomputable def expit (x : ℝ) : ℝ := 1 / (1 + Real.exp (-x))

/-- RMS amplitude, mirroring np.sqrt(np.mean(audio_segment ** 2))
(voice_matcher.py line 226). -/
noncomputable def rms (audio : List ℝ) : ℝ :=
  Real.sqrt (mean (audio.map (fun x => x ^ 2)))

/-- Embedding of match_voice (voice_matcher.py lines 211-257).  The
threshold_confidence parameter is kept for interface fidelity; as in the
source it is unused by the decision logic. -/
noncomputable def match_voice (audio : List ℝ) (profile : VoiceProfile)
    (sampleRate : ℕ) (thresholdConfidence : ℝ) : Bool × ℝ :=
  if rms audio < 0.0005 then (false, 0)
  else
    let mfcc := extract_mfcc audio sampleRate 20 512 256
    if mfcc.length < 5 then (false, 0)
    else
      let scores := mfcc.map (score_sample profile.gmm)
      let avg_score := mean scores
      let diff := avg_score - profile.threshold_score
      let confidence := expit (0.5 * diff)
      (if 0 < diff then true else false, confidence)

/-- The decision margin of match_voice on a segment that passes both
gates: average log-likelihood of the segment frames under the profile's
mixture minus the profile's threshold_score (voice_matcher.py lines
238-249). -/
noncomputable def matchDiff (audio : List ℝ) (profile : VoiceProfile)
    (sampleRate : ℕ) : ℝ :=
  mean ((extract_mfcc audio sampleRate 20 512 256).map
    (score_sample profile.gmm)) - profile.threshold_score

/-- Embedding of create_voice_profile (voice_matcher.py lines 168-208).
The call gmm.fit(mfcc) into the external sklearn library (with
covariance_type diag, random_state 42, n_init 3) is abstracted as the
function parameter fit, applied to the chosen component count and the
training feature matrix. -/
noncomputable def create_voice_profile
    (fit : ℕ → List (List ℝ) → GaussianMixtureModel)
    (audio : List ℝ) (sampleRate : ℕ) : VoiceProfile :=
  let mfcc := extract_mfcc audio sampleRate 20 512 256
  let n_frames := mfcc.length
  let max_components := n_frames / 20
  let n_components0 := min 16 max_components
  let n_components := if n_components0 < 1 then 1 else n_components0
  let gmm := fit n_components mfcc
  let scores := mfcc.map (score_sample gmm)
  let avg_score := mean scores
  let std_score := stdDev scores
  ⟨gmm, avg_score - 1.5 * std_score⟩

/-- Embedding of the serialized profile record read by
VoiceProfile.from_dict (voice_matcher.py lines 29-39).  The
threshold_score key may be absent from a stored record, which the source
reads with data.get and a default; the other keys are accessed with
mandatory indexing. -/
structure ProfileDict where
  weights : List ℝ
  means : List (List ℝ)
  covariances : List (List ℝ)
  precisions_cholesky : List (List ℝ)
  thresholdScoreOpt : Option ℝ

/-- Embedding of VoiceProfile.from_dict (voice_matcher.py lines 29-39):
rebuilds the mixture from the stored arrays, derives precisions as
1 / np.maximum(covariances, 1e-10), and reads threshold_score with
data.get('threshold_score', -20.0).  The function is total: a record
lacking the threshold field still yields a profile. -/
noncomputable def VoiceProfile.from_dict (d : ProfileDict) : VoiceProfile :=
  { gmm :=
      { weights := d.weights
        means := d.means
        covariances := d.covariances
        precisions_cholesky := d.precisions_cholesky
        precisions := d.covariances.map (fun row => row.map (fun c => 1 / max c 1e-10)) }
    threshold_score := d.thresholdScoreOpt.getD (-20) }

/-! ### Theorems for claims C1, C2, C4, C9 -/

/-- C1: whenever the segment RMS is below 0.0005 or the extracted
feature matrix has fewer than 5 frames, match_voice returns exactly
(false, 0), for every profile (and every sample rate and
threshold_confidence argument). -/
theorem C1_silence_and_min_frames_gate (audio : List ℝ) (sampleRate : ℕ)
    (thresholdConfidence : ℝ)
    (h : rms audio < 0.0005 ∨
      (extract_mfcc audio sampleRate 20 512 256).length < 5) :
    ∀ profile : VoiceProfile,
      match_voice audio profile sampleRate thresholdConfidence = (false, 0) := by
  intro profile
  unfold match_voice
  by_cases hq : rms audio < 0.0005
  · rw [if_pos hq]
  · rw [if_neg hq]
    rcases h with h | h
    · exact absurd h hq
    · simp only [if_pos h]

/-- Witness for C1 at a concrete silent segment and a concrete profile:
three zero samples have RMS 0, which is below the 0.0005 floor. -/
theorem C1_witness :
    rms [0, 0, 0] < 0.0005 ∧
    match_voice [0, 0, 0] ⟨⟨[], [], [], [], []⟩, 0⟩ 16000 (1 / 2) = (false, 0) := by
  have h : rms [0, 0, 0] < 0.0005 := by
    norm_num [rms, mean, Real.sqrt_zero]
  exact ⟨h, C1_silence_and_min_frames_gate [0, 0, 0] 16000 (1 / 2) (Or.inl h)
    ⟨⟨[], [], [], [], []⟩, 0⟩⟩

/-- C2: on every segment that passes both gates, match_voice returns
is_match = (diff > 0) and confidence = sigmoid(0.5 * diff) where diff is
the average log-likelihood of the segment frames under the profile's
mixture minus threshold_score; moreover diff = 0 yields confidence 1/2,
and the confidence is monotone non-decreasing in diff. -/
theorem C2_match_voice_decision (audio : List ℝ) (profile : VoiceProfile)
    (sampleRate : ℕ) (thresholdConfidence : ℝ)
    (h1 : ¬ rms audio < 0.0005)
    (h2 : ¬ (extract_mfcc audio sampleRate 20 512 256).length < 5) :
    match_voice audio profile sampleRate thresholdConfidence =
      (if 0 < matchDiff audio profile sampleRate then true else false,
        expit (0.5 * matchDiff audio profile sampleRate)) ∧
    expit (0.5 * 0) = 1 / 2 ∧
    (∀ d e : ℝ, d ≤ e → expit (0.5 * d) ≤ expit (0.5 * e)) := by
  refine ⟨?_, ?_, ?_⟩
  · unfold match_voice matchDiff
    rw [if_neg h1]
    simp only [if_neg h2]
  · unfold expit
    norm_num
  · intro d e hde
    unfold expit
    have hexp : Real.exp (-(0.5 * e)) ≤ Real.exp (-(0.5 * d)) :=
      Real.exp_le_exp.mpr (by linarith)
    have hpos : (0 : ℝ) < 1 + Real.exp (-(0.5 * e)) := by positivity
    exact one_div_le_one_div_of_le hpos (by linarith)

/-- Witness for C2 at a concrete constant segment (1536 samples of
amplitude 1, giving RMS 1 and exactly 5 feature frames) and a concrete
profile. -/
theorem C2_witness :
    (¬ rms (List.replicate 1536 (1 : ℝ)) < 0.0005) ∧
    (¬ (extract_mfcc (List.replicate 1536 (1 : ℝ)) 16000 20 512 256).length < 5) ∧
    (match_voice (List.replicate 1536 (1 : ℝ)) ⟨⟨[], [], [], [], []⟩, 0⟩ 16000 (1 / 2) =
      (if 0 < matchDiff (List.replicate 1536 (1 : ℝ)) ⟨⟨[], [], [], [], []⟩, 0⟩ 16000
          then true else false,
        expit (0.5 * matchDiff (List.replicate 1536 (1 : ℝ)) ⟨⟨[], [], [], [], []⟩, 0⟩ 16000)) ∧
      expit (0.5 * 0) = 1 / 2 ∧
      (∀ d e : ℝ, d ≤ e → expit (0.5 * d) ≤ expit (0.5 * e))) := by
  have hrms : rms (List.replicate 1536 (1 : ℝ)) = 1 := by
    unfold rms mean
    rw [List.map_replicate]
    norm_num [List.sum_replicate]
  have h1 : ¬ rms (List.replicate 1536 (1 : ℝ)) < 0.0005 := by
    rw [hrms]; norm_num
  have h2 : ¬ (extract_mfcc (List.replicate 1536 (1 : ℝ)) 16000 20 512 256).length < 5 := by
    rw [extract_mfcc_length, List.length_replicate]
    decide
  exact ⟨h1, h2, C2_match_voice_decision (List.replicate 1536 (1 : ℝ))
    ⟨⟨[], [], [], [], []⟩, 0⟩ 16000 (1 / 2) h1 h2⟩

lemma clamp_components (m : ℕ) :
    (if min 16 m < 1 then 1 else min 16 m) = max 1 (min 16 m) := by
  rcases Nat.lt_or_ge (min 16 m) 1 with h | h
  · rw [if_pos h]; omega
  · rw [if_neg (by omega)]; omega

/-- C4: assuming the external sklearn fit returns, for any requested
component count k ≥ 1, a mixture with weights summing to 1 and exactly k
components, the profile built by create_voice_profile has weights
summing to 1, component count max 1 (min 16 (n_training_frames / 20)),
and threshold_score equal to mean minus 1.5 times the standard deviation
of the training log-likelihoods of the enrollment feature frames under
the fitted mixture. -/
theorem C4_create_voice_profile (fit : ℕ → List (List ℝ) → GaussianMixtureModel)
    (audio : List ℝ) (sampleRate : ℕ)
    (hfit : ∀ k X, 1 ≤ k → (fit k X).weights.sum = 1 ∧ (fit k X).weights.length = k) :
    (create_voice_profile fit audio sampleRate).gmm.weights.sum = 1 ∧
    (create_voice_profile fit audio sampleRate).gmm.weights.length =
      max 1 (min 16 ((extract_mfcc audio sampleRate 20 512 256).length / 20)) ∧
    (create_voice_profile fit audio sampleRate).threshold_score =
      mean ((extract_mfcc audio sampleRate 20 512 256).map
          (score_sample (create_voice_profile fit audio sampleRate).gmm)) -
        1.5 * stdDev ((extract_mfcc audio sampleRate 20 512 256).map
          (score_sample (create_voice_profile fit audio sampleRate).gmm)) := by
  have hgmm : (create_voice_profile fit audio sampleRate).gmm =
      fit (if min 16 ((extract_mfcc audio sampleRate 20 512 256).length / 20) < 1
          then 1 else min 16 ((extract_mfcc audio sampleRate 20 512 256).length / 20))
        (extract_mfcc audio sampleRate 20 512 256) := rfl
  have hk : 1 ≤ (if min 16 ((extract_mfcc audio sampleRate 20 512 256).length / 20) < 1
      then 1 else min 16 ((extract_mfcc audio sampleRate 20 512 256).length / 20)) := by
    rw [clamp_components]; omega
  obtain ⟨hsum, hlen⟩ := hfit _ (extract_mfcc audio sampleRate 20 512 256) hk
  refine ⟨?_, ?_, ?_⟩
  · rw [hgmm]; exact hsum
  · rw [hgmm, hlen, clamp_components]
  · rfl

/-- Witness for C4 at a concrete fit function (weights 1 followed by
k - 1 zeros) and empty enrollment audio. -/
theorem C4_witness :
    (∀ k X, 1 ≤ k →
      ((fun (k : ℕ) (_ : List (List ℝ)) =>
          (⟨1 :: List.replicate (k - 1) 0, [], [], [], []⟩ : GaussianMixtureModel)) k X).weights.sum = 1 ∧
      ((fun (k : ℕ) (_ : List (List ℝ)) =>
          (⟨1 :: List.replicate (k - 1) 0, [], [], [], []⟩ : GaussianMixtureModel)) k X).weights.length = k) ∧
    ((create_voice_profile (fun k _ => ⟨1 :: List.replicate (k - 1) 0, [], [], [], []⟩)
        [] 16000).gmm.weights.sum = 1 ∧
      (create_voice_profile (fun k _ => ⟨1 :: List.replicate (k - 1) 0, [], [], [], []⟩)
        [] 16000).gmm.weights.length =
        max 1 (min 16 ((extract_mfcc [] 16000 20 512 256).length / 20)) ∧
      (create_voice_profile (fun k _ => ⟨1 :: List.replicate (k - 1) 0, [], [], [], []⟩)
        [] 16000).threshold_score =
        mean ((extract_mfcc [] 16000 20 512 256).map
            (score_sample (create_voice_profile
              (fun k _ => ⟨1 :: List.replicate (k - 1) 0, [], [], [], []⟩) [] 16000).gmm)) -
          1.5 * stdDev ((extract_mfcc [] 16000 20 512 256).map
            (score_sample (create_voice_profile
              (fun k _ => ⟨1 :: List.replicate (k - 1) 0, [], [], [], []⟩) [] 16000).gmm))) := by
  have hf : ∀ k X, 1 ≤ k →
      ((fun (k : ℕ) (_ : List (List ℝ)) =>
          (⟨1 :: List.replicate (k - 1) 0, [], [], [], []⟩ : GaussianMixtureModel)) k X).weights.sum = 1 ∧
      ((fun (k : ℕ) (_ : List (List ℝ)) =>
          (⟨1 :: List.replicate (k - 1) 0, [], [], [], []⟩ : GaussianMixtureModel)) k X).weights.length = k := by
    intro k X hk
    constructor
    · simp [List.sum_replicate]
    · simp only [List.length_cons, List.length_replicate]
      omega
  exact ⟨hf, C4_create_voice_profile _ [] 16000 hf⟩

/-- C9: deserializing a stored profile record whose threshold_score
field is absent yields a profile whose threshold_score is the default
-20.0; the deserializer is total, so no exception is modelled. -/
theorem C9_from_dict_default_threshold (d : ProfileDict)
    (h : d.thresholdScoreOpt = none) :
    (VoiceProfile.from_dict d).threshold_score = -20 := by
  simp [VoiceProfile.from_dict, h]

/-- Witness for C9 at a concrete record with no threshold_score field. -/
theorem C9_witness :
    (⟨[], [], [], [], none⟩ : ProfileDict).thresholdScoreOpt = none ∧
    (VoiceProfile.from_dict ⟨[], [], [], [], none⟩).threshold_score = -20 :=
  ⟨rfl, C9_from_dict_default_threshold ⟨[], [], [], [], none⟩ rfl⟩

/-! ### speaker_id.py — enrollment by chunk averaging -/

/-- Elementwise sum of a list of equal-length vectors, the reduction
underlying np.mean(embeddings, axis=0). -/
def vecSum : List (List ℝ) → List ℝ
  | [] => []
  | [v] => v
  | v :: vs => List.zipWith (fun x y => x + y) v (vecSum vs)

/-- Elementwise mean of a list of equal-length vectors, mirroring
np.mean(embeddings, axis=0). -/
noncomputable def vecMean (vs : List (List ℝ)) : List ℝ :=
  (vecSum vs).map (fun x => x / (vs.length : ℝ))

/-- Embedding of SpeakerEmbedder.enroll_from_audio (speaker_id.py lines
64-83).  The external neural embedder is the function parameter embed;
chunkSize stands for int(chunk_duration * sample_rate).  The chunk
starts range(0, len(audio) - chunk_size + 1, chunk_size) enumerates
exactly len(audio) / chunk_size (integer division) starts, which is how
the chunk list is indexed here; an audio shorter than one chunk yields
no chunks and falls back to a single whole-clip embedding, returned
without normalization as in the source. -/
noncomputable def enroll_from_audio (embed : List ℝ → List ℝ)
    (audio : List ℝ) (chunkSize : ℕ) : List ℝ :=
  let embeddings := (List.range (audio.length / chunkSize)).map
    (fun i => embed ((audio.drop (i * chunkSize)).take chunkSize))
  if embeddings.isEmpty then embed audio
  else
    let avg := vecMean embeddings
    avg.map (fun x => x / l2norm avg)

lemma sum_map_sq_nonneg (v : List ℝ) : 0 ≤ (v.map (fun x => x * x)).sum := by
  apply List.sum_nonneg
  intro x hx
  obtain ⟨a, _, rfl⟩ := List.mem_map.mp hx
  exact mul_self_nonneg a

lemma l2norm_nonneg (v : List ℝ) : 0 ≤ l2norm v := by
  unfold l2norm
  exact Real.sqrt_nonneg _

lemma l2norm_map_div (v : List ℝ) (c : ℝ) :
    l2norm (v.map (fun x => x / c)) = l2norm v / |c| := by
  unfold l2norm
  rw [List.map_map]
  have hfun : ((fun x => x * x) ∘ fun x => x / c) = fun x => (x * x) * (c ^ 2)⁻¹ := by
    funext x
    field_simp
    ring
  rw [hfun]
  rw [List.sum_map_mul_right]
  rw [Real.sqrt_mul (sum_map_sq_nonneg v)]
  rw [Real.sqrt_inv, Real.sqrt_sq_eq_abs]
  rw [div_eq_mul_inv]

/-- C8: whenever the enrollment audio contains at least one full chunk
and the chunk-averaged embedding is nonzero, the vector returned by
enroll_from_audio has L2 norm exactly 1 (the floating-point tolerance of
the claim collapses to equality in the exact real model). -/
theorem C8_enroll_unit_norm (embed : List ℝ → List ℝ) (audio : List ℝ)
    (chunkSize : ℕ) (hn : audio.length / chunkSize ≠ 0)
    (havg : l2norm (vecMean ((List.range (audio.length / chunkSize)).map
      (fun i => embed ((audio.drop (i * chunkSize)).take chunkSize)))) ≠ 0) :
    l2norm (enroll_from_audio embed audio chunkSize) = 1 := by
  unfold enroll_from_audio
  have hne : ¬ ((List.range (audio.length / chunkSize)).map
      (fun i => embed ((audio.drop (i * chunkSize)).take chunkSize))).isEmpty = true := by
    simp [List.isEmpty_iff, List.range_eq_nil, hn]
  rw [if_neg hne]
  rw [l2norm_map_div]
  rw [abs_of_nonneg (l2norm_nonneg _)]
  exact div_self havg

/-- Witness for C8 at a concrete constant embedder (always [3, 4]), a
two-sample audio and chunk size 1: the chunk average is [3, 4] with norm
5 ≠ 0, and the enrollment output has norm 1. -/
theorem C8_witness :
    (([(0 : ℝ), 0]).length / 1 ≠ 0) ∧
    l2norm (vecMean ((List.range (([(0 : ℝ), 0]).length / 1)).map
      (fun i => (fun _ : List ℝ => [(3 : ℝ), 4])
        ((([(0 : ℝ), 0]).drop (i * 1)).take 1)))) ≠ 0 ∧
    l2norm (enroll_from_audio (fun _ : List ℝ => [(3 : ℝ), 4]) [(0 : ℝ), 0] 1) = 1 := by
  have hlen : ([(0 : ℝ), 0]).length / 1 = 2 := rfl
  have hE : (List.range (([(0 : ℝ), 0]).length / 1)).map
      (fun i => (fun _ : List ℝ => [(3 : ℝ), 4])
        ((([(0 : ℝ), 0]).drop (i * 1)).take 1)) = [[3, 4], [3, 4]] := rfl
  have hm : vecMean [[(3 : ℝ), 4], [(3 : ℝ), 4]] = [3, 4] := by
    unfold vecMean
    rw [show vecSum [[(3 : ℝ), 4], [(3 : ℝ), 4]] = [3 + 3, 4 + 4] from rfl]
    norm_num
  have hnorm : l2norm [(3 : ℝ), 4] = 5 := by
    unfold l2norm
    rw [show (([(3 : ℝ), 4]).map (fun x => x * x)).sum = 25 by norm_num]
    rw [show (25 : ℝ) = 5 ^ 2 by norm_num, Real.sqrt_sq (by norm_num : (0 : ℝ) ≤ 5)]
  have havg : l2norm (vecMean ((List.range (([(0 : ℝ), 0]).length / 1)).map
      (fun i => (fun _ : List ℝ => [(3 : ℝ), 4])
        ((([(0 : ℝ), 0]).drop (i * 1)).take 1)))) ≠ 0 := by
    rw [hE, hm, hnorm]
    norm_num
  have hn : ([(0 : ℝ), 0]).length / 1 ≠ 0 := by
    rw [hlen]
    norm_num
  exact ⟨hn, havg, C8_enroll_unit_norm (fun _ : List ℝ => [(3 : ℝ), 4]) [(0 : ℝ), 0] 1 hn havg⟩

/-! ### speaker_id.py — embedding persistence

The embedding vector is stored as np.float32; save_embedding writes it
through embedding.tolist() (exact widening of each float32 entry to a
Python float, an IEEE float64) and json.dump (repr decimals, the
shortest decimal strings that parse back to the identical float64), and
load_embedding reads it back with json.load and casts to float32 with
np.asarray.  Values are modelled as the rationals they denote, so the
float32/float64 grids and the rounding of the cast are exact. -/

/-- Round to nearest integer with ties to even, the rounding of IEEE-754
binary conversions (here numpy's float64 → float32 cast). -/
def rne (q : ℚ) : ℤ :=
  if q - (⌊q⌋ : ℚ) < 1 / 2 then ⌊q⌋
  else if 1 / 2 < q - (⌊q⌋ : ℚ) then ⌊q⌋ + 1
  else if ⌊q⌋ % 2 = 0 then ⌊q⌋ else ⌊q⌋ + 1

/-- Exponent of the unit in the last place of the float32 grid around q:
magnitudes below 2^(-126) (the subnormal range) have spacing 2^(-149); a
normal magnitude in [2^e, 2^(e+1)) has spacing 2^(e-23). -/
def ulpExp32 (q : ℚ) : ℤ :=
  if |q| < (2 : ℚ) ^ (-126 : ℤ) then -149 else Int.log 2 |q| - 23

/-- Conversion of a finite float64 value to the float32 grid by rounding
to nearest, ties to even, as performed by np.asarray(..., dtype=float32).
Overflow to infinity cannot occur for the float32-valued inputs of the
round-trip claim and is not modelled. -/
def roundF32 (q : ℚ) : ℚ :=
  (rne (q * (2 : ℚ) ^ (-(ulpExp32 q))) : ℚ) * (2 : ℚ) ^ (ulpExp32 q)

/-- The finite float32 values: m * 2^e with a 24-bit significand,
exponent at least -149 (the least subnormal exponent) and magnitude
below 2^128. -/
def isFiniteF32 (q : ℚ) : Prop :=
  ∃ m e : ℤ, |m| < 2 ^ 24 ∧ -149 ≤ e ∧ |q| < (2 : ℚ) ^ (128 : ℤ) ∧
    q = (m : ℚ) * (2 : ℚ) ^ e

/-- The finite float64 values: m * 2^e with a 53-bit significand,
exponent at least -1074 and magnitude below 2^1024. -/
def isFiniteF64 (q : ℚ) : Prop :=
  ∃ m e : ℤ, |m| < 2 ^ 53 ∧ -1074 ≤ e ∧ |q| < (2 : ℚ) ^ (1024 : ℤ) ∧
    q = (m : ℚ) * (2 : ℚ) ^ e

/-- Widening a finite float32 value to float64 is exact: every finite
float32 value is a finite float64 value, which is why tolist() and the
repr round-trip of json.dump/json.load preserve the stored values. -/
lemma isFiniteF32_isFiniteF64 (q : ℚ) (h : isFiniteF32 q) : isFiniteF64 q := by
  obtain ⟨m, e, hm, he, hq, hqe⟩ := h
  refine ⟨m, e, lt_trans hm (by norm_num), by omega, lt_trans hq ?_, hqe⟩
  exact zpow_lt_zpow_right₀ (by norm_num : (1 : ℚ) < 2) (by norm_num)

/-- Embedding of save_embedding (speaker_id.py lines 86-90): the stored
record is modelled by the float64 values its decimals denote, which by
the exactness of widening and of the repr round-trip are the saved
values themselves. -/
def save_embedding (v : List ℚ) : List ℚ := v

/-- Embedding of load_embedding (speaker_id.py lines 93-97): json.load
yields the stored float64 values and np.asarray(..., dtype=np.float32)
rounds each entry to the nearest float32. -/
def load_embedding (stored : List ℚ) : List ℚ := stored.map roundF32

lemma rne_intCast (z : ℤ) : rne (z : ℚ) = z := by
  unfold rne
  rw [Int.floor_intCast]
  norm_num

lemma roundF32_of_eq_int_mul (q : ℚ) (z : ℤ)
    (hz : q = (z : ℚ) * (2 : ℚ) ^ (ulpExp32 q)) : roundF32 q = q := by
  have h2 : (2 : ℚ) ≠ 0 := by norm_num
  set u := ulpExp32 q with hu
  have hint : q * (2 : ℚ) ^ (-u) = (z : ℚ) := by
    rw [hz, mul_assoc, ← zpow_add₀ h2, show u + -u = 0 by omega, zpow_zero, mul_one]
  unfold roundF32
  rw [← hu, hint, rne_intCast, ← hz]

lemma ulpExp32_le (q : ℚ) (m e : ℤ) (hm : |m| < 2 ^ 24) (he : -149 ≤ e)
    (hqe : q = (m : ℚ) * (2 : ℚ) ^ e) : ulpExp32 q ≤ e := by
  by_cases hsub : |q| < (2 : ℚ) ^ (-126 : ℤ)
  · unfold ulpExp32
    rw [if_pos hsub]
    omega
  · unfold ulpExp32
    rw [if_neg hsub]
    have hq0 : q ≠ 0 := by
      intro h0
      apply hsub
      rw [h0, abs_zero]
      positivity
    have habs : |q| < (2 : ℚ) ^ (e + 24) := by
      rw [hqe, abs_mul, abs_of_pos (zpow_pos (by norm_num : (0 : ℚ) < 2) e)]
      have hmq : |(m : ℚ)| < (2 : ℚ) ^ (24 : ℕ) := by
        rw [← Int.cast_abs]
        exact_mod_cast hm
      calc |(m : ℚ)| * (2 : ℚ) ^ e < (2 : ℚ) ^ (24 : ℕ) * (2 : ℚ) ^ e := by
            have hp : (0 : ℚ) < (2 : ℚ) ^ e := by positivity
            exact mul_lt_mul_of_pos_right hmq hp
        _ = (2 : ℚ) ^ (e + 24) := by
            rw [← zpow_natCast (2 : ℚ) 24, ← zpow_add₀ (by norm_num : (2 : ℚ) ≠ 0)]
            congr 1
            omega
    have hlog : Int.log 2 |q| < e + 24 := by
      rw [← Int.lt_zpow_iff_log_lt (by norm_num : (1 : ℕ) < 2) (abs_pos.mpr hq0)]
      exact_mod_cast habs
    omega

lemma isFiniteF32_on_grid (q : ℚ) (h : isFiniteF32 q) :
    ∃ z : ℤ, q = (z : ℚ) * (2 : ℚ) ^ (ulpExp32 q) := by
  obtain ⟨m, e, hm, he, _, hqe⟩ := h
  have hle : ulpExp32 q ≤ e := ulpExp32_le q m e hm he hqe
  set u := ulpExp32 q with hu
  refine ⟨m * 2 ^ (e - u).toNat, ?_⟩
  rw [hqe]
  push_cast
  rw [mul_assoc, ← zpow_natCast (2 : ℚ) (e - u).toNat,
    ← zpow_add₀ (by norm_num : (2 : ℚ) ≠ 0)]
  rw [show (((e - u).toNat : ℤ) + u) = e by omega]

/-- Rounding to the float32 grid fixes every finite float32 value. -/
lemma roundF32_fix (q : ℚ) (h : isFiniteF32 q) : roundF32 q = q := by
  obtain ⟨z, hz⟩ := isFiniteF32_on_grid q h
  exact roundF32_of_eq_int_mul q z hz

/-- C10: embedding persistence round-trips exactly — for every vector of
finite float32 values, loading what save_embedding stored returns the
original vector elementwise (JSON widens each float32 to float64 exactly
and the load re-rounds to the same float32). -/
theorem C10_save_load_roundtrip (v : List ℚ) (h : ∀ q ∈ v, isFiniteF32 q) :
    load_embedding (save_embedding v) = v := by
  unfold save_embedding load_embedding
  induction v with
  | nil => rfl
  | cons a t ih =>
    rw [List.map_cons]
    rw [roundF32_fix a (h a (by simp))]
    rw [ih (fun q hq => h q (by simp [hq]))]

/-- Witness for C10 at the concrete vector [1/2, -3, 0], each entry a
finite float32 value. -/
theorem C10_witness :
    (∀ q ∈ [(1 : ℚ) / 2, -3, 0], isFiniteF32 q) ∧
    load_embedding (save_embedding [(1 : ℚ) / 2, -3, 0]) = [(1 : ℚ) / 2, -3, 0] := by
  have h : ∀ q ∈ [(1 : ℚ) / 2, -3, 0], isFiniteF32 q := by
    intro q hq
    rw [List.mem_cons, List.mem_cons, List.mem_singleton] at hq
    rcases hq with rfl | rfl | rfl
    · refine ⟨1, -1, by decide, by decide, ?_, by norm_num⟩
      rw [abs_of_nonneg (by norm_num : (0 : ℚ) ≤ 1 / 2)]
      norm_num
    · exact ⟨-3, 0, by decide, by decide, by norm_num, by norm_num⟩
    · exact ⟨0, 0, by decide, by decide, by norm_num, by norm_num⟩
  exact ⟨h, C10_save_load_roundtrip [(1 : ℚ) / 2, -3, 0] h⟩

end AmITalking
